import Mathlib

/-!
Shallow embedding of the madaWM window manager, in its two source variants:

* `Madawm` — the code in `src/madawm.c` (3 workspaces, one linked list per
  workspace, no focus tracking, no borders).
* `MiniwmFixed` — the variant embedded in `src/README.md`
  ("Fixed Minimal Window Manager": 2 workspaces, a single client list with a
  per-client workspace tag, borders and focus management).

Window handles are modelled as natural numbers; the per-workspace intrusive
linked lists become Lean lists (the list head corresponds to the head of the
C linked list).  X-server side effects that do not touch the manager's own
state (XMoveResizeWindow, XKillClient, border colours, raising, protocol
messages) are not part of the state; mapping/unmapping and input focus are
tracked where the variant manipulates them.
-/

/-- ASCII lower-casing of one character, as C `tolower` does in the "C"
locale (the only characters in the allow-lists are ASCII). -/
def asciiLower (c : Char) : Char :=
  if 65 ≤ c.toNat ∧ c.toNat ≤ 90 then Char.ofNat (c.toNat + 32) else c

/-- Case-insensitive string comparison, modelling C `strcasecmp(a,b) == 0`. -/
def ieq (a b : String) : Bool := a.data.map asciiLower == b.data.map asciiLower

namespace Madawm

/-- Models `#define WORKSPACES 3` in `src/madawm.c`. -/
def WORKSPACES : Nat := 3

/-- The global mutable state of `src/madawm.c`: the array
`Client *ws[WORKSPACES]` of per-workspace client lists and `int cur_ws`. -/
structure MState where
  ws : Fin 3 → List Nat
  cur : Fin 3

/-- Array `allowed_classes` from `src/madawm.c` (the terminating NULL dropped). -/
def allowed_classes : List String :=
  ["XTerm", "xterm", "Terminal", "URxvt", "urxvt", "Firefox", "firefox", "kitty", "Kitty"]

/-- The loop of `allowed_window`: for each allowed class `p` it evaluates
`strcasecmp(res_class, p) == 0 || strcasecmp(res_name, p) == 0`.  The `||`
short-circuits, so `res_name` is passed to `strcasecmp` exactly when the
class comparison fails; if `res_name` is the NULL pointer at that point the
C program has undefined behaviour, modelled by the result `none`. -/
def classLoop (c : String) (nm : Option String) : List String → Option Bool
  | [] => some false
  | p :: rest =>
    if ieq c p then some true
    else
      match nm with
      | none => none
      | some n => if ieq n p then some true else classLoop c nm rest

/-- Function `allowed_window` from `src/madawm.c`.  The argument is the result of
`XGetClassHint`: `none` when the call fails, otherwise the pair
(`res_class`, `res_name`), each `none` when the corresponding hint string is
the NULL pointer.  The loop body runs only under `if (ch.res_class)`; a
window with no `res_class` is rejected without ever looking at `res_name`.
Result `none` models a NULL-pointer dereference (undefined behaviour). -/
def allowed_window (hints : Option (Option String × Option String)) : Option Bool :=
  match hints with
  | none => some false
  | some (cls, nm) =>
    match cls with
    | none => some false
    | some c => classLoop c nm allowed_classes

/-- Function `add_client` from `src/madawm.c`: pushes the window onto the head of the
current workspace's list (`c->next = ws[cur_ws]; ws[cur_ws] = c;`). -/
def add_client (w : Nat) (s : MState) : MState :=
  { s with ws := Function.update s.ws s.cur (w :: s.ws s.cur) }

/-- The list traversal inside `remove_client_from_ws`: unlinks the first
node whose window equals `w`, leaving the rest of the list untouched. -/
def eraseWindow (w : Nat) : List Nat → List Nat
  | [] => []
  | x :: rest => if x = w then rest else x :: eraseWindow w rest

/-- Function `remove_client_from_ws(w, wsidx)` from `src/madawm.c`. -/
def remove_client_from_ws (w : Nat) (i : Fin 3) (s : MState) : MState :=
  { s with ws := Function.update s.ws i (eraseWindow w (s.ws i)) }

/-- The geometry computed by `arrange` in `src/madawm.c`: every client of
the current workspace, in list order, is moved to
`XMoveResizeWindow(dpy, c->w, i * (screen_w / count), 0, screen_w / count,
screen_h)`.  Returns the list of (window, x, y, width, height) tuples; with
zero clients the loop body never runs and no geometry is produced. -/
def arrange (W H : Nat) (cs : List Nat) : List (Nat × Nat × Nat × Nat × Nat) :=
  let count := cs.length
  let w := W / count
  cs.enum.map (fun p => (p.2, p.1 * w, 0, w, H))

/-- Function `focus_next` from `src/madawm.c`: if the current workspace is non-empty,
take the head window, `remove_client_from_ws` it and `add_client` it back,
then `arrange()` (which changes no registry state). -/
def focus_next (s : MState) : MState :=
  match s.ws s.cur with
  | [] => s
  | first :: _ => add_client first (remove_client_from_ws first s.cur s)

/-- Function `change_ws(idx)` from `src/madawm.c`: returns immediately when
`idx < 0 || idx >= WORKSPACES`; otherwise hides the current workspace's
windows (an X call only), sets `cur_ws = idx` and re-arranges. -/
def change_ws (idx : Int) (s : MState) : MState :=
  if h : idx < 0 ∨ 3 ≤ idx then s
  else { s with cur := ⟨idx.toNat, by omega⟩ }

/-- Function `handle_maprequest` from `src/madawm.c`: kills the window when
`allowed_window` rejects it (registry untouched), otherwise `add_client`s it
unconditionally — there is no check whether the window is already managed.
`none` propagates `allowed_window`'s undefined behaviour. -/
def handle_maprequest (w : Nat) (hints : Option (Option String × Option String))
    (s : MState) : Option MState :=
  match allowed_window hints with
  | none => none
  | some false => some s
  | some true => some (add_client w s)

/-- Function `handle_unmap` from `src/madawm.c`: removes the window from the
*current* workspace's list only, then re-arranges. -/
def handle_unmap (w : Nat) (s : MState) : MState :=
  remove_client_from_ws w s.cur s

/-- Function `handle_destroy` from `src/madawm.c`: identical registry effect to
`handle_unmap` — removal from the current workspace only. -/
def handle_destroy (w : Nat) (s : MState) : MState :=
  remove_client_from_ws w s.cur s

end Madawm

namespace MiniwmFixed

/-- Models `#define WORKSPACES 2` in the `src/README.md` variant. -/
def WORKSPACES : Nat := 2

/-- Models `#define BORDER_WIDTH 2` in the `src/README.md` variant. -/
def BORDER_WIDTH : Nat := 2

/-- Models `struct Client` of the `src/README.md` variant: a window handle and its
workspace tag. -/
structure Client where
  w : Nat
  workspace : Nat
deriving DecidableEq, Repr

/-- The global mutable state of the `src/README.md` variant: the single
`Client *clients` list, `int cur_ws`, the X server's input focus (written by
`XSetInputFocus`; `none` models focus on the root window) and each window's
mapped state (written by `XMapWindow` / `XUnmapWindow`). -/
structure State where
  clients : List Client
  cur_ws : Nat
  focused : Option Nat
  mapped : Nat → Bool

/-- Array `terminal_classes` from `src/README.md` (terminating NULL dropped). -/
def terminal_classes : List String :=
  ["xterm", "XTerm", "URxvt", "urxvt", "Terminal",
   "kitty", "Kitty", "Alacritty", "alacritty", "St", "st"]

/-- Array `browser_classes` from `src/README.md` (terminating NULL dropped). -/
def browser_classes : List String :=
  ["firefox", "Firefox", "Chromium", "chromium",
   "Google-chrome", "google-chrome", "Brave-browser"]

/-- Function `match_class` from `src/README.md`.  The argument is the result of
`XGetClassHint` as in `Madawm.allowed_window`.  Each of `res_class` and
`res_name` is compared only under its own non-NULL guard
(`ch.res_class && strcasecmp(...)`), so no absent hint string is ever
dereferenced and the function is total. -/
def match_class (classes : List String)
    (hints : Option (Option String × Option String)) : Bool :=
  match hints with
  | none => false
  | some (cls, nm) =>
    if cls.isSome || nm.isSome then
      classes.any (fun p =>
        (match cls with | some c => ieq c p | none => false)
        || (match nm with | some n => ieq n p | none => false))
    else false

/-- Function `get_window_workspace` from `src/README.md`: workspace 0 for terminals,
1 for browsers, `-1` for a window that is not allowed. -/
def get_window_workspace (hints : Option (Option String × Option String)) : Int :=
  if match_class terminal_classes hints then 0
  else if match_class browser_classes hints then 1
  else -1

/-- Function `find_client` from `src/README.md`: first client with the given window. -/
def find_client (w : Nat) (s : State) : Option Client :=
  s.clients.find? (fun c => c.w == w)

/-- Function `add_client` from `src/README.md`: pushes the new client onto the head
of the list (`c->next = clients; clients = c;`). -/
def add_client (w : Nat) (workspace : Nat) (s : State) : State :=
  { s with clients := ⟨w, workspace⟩ :: s.clients }

/-- The list traversal inside `remove_client`: unlinks the first client
whose window equals `w`. -/
def eraseClient (w : Nat) : List Client → List Client
  | [] => []
  | c :: rest => if c.w = w then rest else c :: eraseClient w rest

/-- Function `remove_client` from `src/README.md`. -/
def remove_client (w : Nat) (s : State) : State :=
  { s with clients := eraseClient w s.clients }

/-- Function `set_focus` from `src/README.md`: `None` reverts input focus to the root
window; a window gets the focused border (untracked), input focus and a
raise.  Only the input-focus assignment touches tracked state. -/
def set_focus (o : Option Nat) (s : State) : State :=
  { s with focused := o }

/-- The current workspace's clients in list order, i.e. the clients the
loops of `arrange` / `focus_next` / `focus_prev` act on (those with
`c->workspace == cur_ws`). -/
def visibleHandles (s : State) : List Nat :=
  (s.clients.filter (fun c => c.workspace == s.cur_ws)).map Client.w

/-- The column geometry computed by `arrange` in `src/README.md` for `n`
visible clients on a screen of width `W`: `tile_w = screen_w / count`,
`x = i * tile_w`, and the last column takes `screen_w - x` (the drawn
window is this column minus `2 * BORDER_WIDTH` per dimension). -/
def tileColumns (W n : Nat) : List (Nat × Nat) :=
  (List.range n).map (fun i =>
    let tile_w := W / n
    let x := i * tile_w
    (x, if i = n - 1 then W - x else tile_w))

/-- Function `arrange` from `src/README.md`, tracked-state part: with no client on
the current workspace it only calls `set_focus(None)`; otherwise it maps
every visible client, unmaps every other client, and finally focuses the
first visible client in list order. -/
def arrange (s : State) : State :=
  let vis := visibleHandles s
  match vis with
  | [] => set_focus none s
  | first :: _ =>
    set_focus (some first)
      { s with mapped := fun w =>
          if vis.contains w then true
          else if ((s.clients.filter (fun c => !(c.workspace == s.cur_ws))).map Client.w).contains w
            then false
          else s.mapped w }

/-- The scan inside `focus_next` of `src/README.md`, restricted to the
visible clients: the element following the server-focused window `f`, or
`none` when `f` is not in the list or has no successor. -/
def nextAfter (f : Option Nat) : List Nat → Option Nat
  | [] => none
  | w :: rest => if some w = f then rest.head? else nextAfter f rest

/-- Function `focus_next` from `src/README.md`: reads the server focus, finds the
next visible client after it and focuses it, wrapping to the first visible
client when there is no successor (or no current); no-op on an empty
workspace.  The client list itself is never modified. -/
def focus_next (s : State) : State :=
  let vs := visibleHandles s
  match vs.head? with
  | none => s
  | some first => set_focus (some ((nextAfter s.focused vs).getD first)) s

/-- The scan inside `focus_prev` of `src/README.md`: the last visible client
strictly before the server-focused one (`else if (!cur) prev = c;`), or —
when the focused window is not found — the last visible client. -/
def prevScan (f : Option Nat) (vs : List Nat) : Option Nat :=
  (vs.foldl
    (fun (acc : Option Nat × Bool) w =>
      if some w = f then (acc.1, true)
      else if acc.2 then acc else (some w, false))
    (none, false)).1

/-- Function `focus_prev` from `src/README.md`: focuses the visible client before the
server-focused one, wrapping to the last visible client; no-op on an empty
workspace. -/
def focus_prev (s : State) : State :=
  let vs := visibleHandles s
  match prevScan s.focused vs with
  | some p => set_focus (some p) s
  | none =>
    match vs.getLast? with
    | some l => set_focus (some l) s
    | none => s

/-- Function `change_ws(ws)` from `src/README.md`: returns immediately when
`ws < 0 || ws >= WORKSPACES || ws == cur_ws`; otherwise sets `cur_ws` and
re-arranges. -/
def change_ws (t : Int) (s : State) : State :=
  if t < 0 ∨ 2 ≤ t ∨ t = (s.cur_ws : Int) then s
  else arrange { s with cur_ws := t.toNat }

/-- Function `handle_maprequest` from `src/README.md`: ignores the request when the
window is already managed (`if (find_client(w)) return;`); kills a window
whose class is not allowed (registry untouched); otherwise adds the client
and either switches to its workspace or re-arranges. -/
def handle_maprequest (w : Nat) (hints : Option (Option String × Option String))
    (s : State) : State :=
  if (find_client w s).isSome then s
  else
    let ws := get_window_workspace hints
    if ws < 0 then s
    else
      let s1 := add_client w ws.toNat s
      if ws ≠ (s.cur_ws : Int) then change_ws ws s1 else arrange s1

/-- Function `handle_unmap` from `src/README.md`: acts only on synthetic unmap events
(`if (e->xunmap.send_event)`); a real unmap notification is ignored. -/
def handle_unmap (w : Nat) (synthetic : Bool) (s : State) : State :=
  if synthetic then arrange (remove_client w s) else s

/-- Function `handle_destroy` from `src/README.md`: removes the client (from
whichever workspace holds it — the list is global) and re-arranges. -/
def handle_destroy (w : Nat) (s : State) : State :=
  arrange (remove_client w s)

/-- Function `handle_enternotify` from `src/README.md`: focus follows the pointer
into a managed window of the current workspace. -/
def handle_enternotify (w : Nat) (s : State) : State :=
  match find_client w s with
  | some c => if c.workspace = s.cur_ws then set_focus (some c.w) s else s
  | none => s

/-- The events dispatched by `run()` in `src/README.md`.  Map requests carry
the class hints the handler queries; unmap notifications carry the
`send_event` flag.  Key chords that only spawn processes or send protocol
messages (`Super+Return`, `Super+b`, `Super+Shift+c`, `Super+Shift+q`)
leave the tracked state unchanged. -/
inductive Ev where
  | mapReq (w : Nat) (hints : Option (Option String × Option String))
  | unmapNotify (w : Nat) (synthetic : Bool)
  | destroyNotify (w : Nat)
  | configureReq
  | enterNotify (w : Nat)
  | keyWs (n : Int)
  | keyFocusNext
  | keyFocusPrev
  | keyKill
  | keySpawn

/-- The event dispatcher of `src/README.md` (`run()`'s switch). -/
def step (e : Ev) (s : State) : State :=
  match e with
  | .mapReq w h => handle_maprequest w h s
  | .unmapNotify w syn => handle_unmap w syn s
  | .destroyNotify w => handle_destroy w s
  | .configureReq => s
  | .enterNotify w => handle_enternotify w s
  | .keyWs n => change_ws n s
  | .keyFocusNext => focus_next s
  | .keyFocusPrev => focus_prev s
  | .keyKill => s
  | .keySpawn => s

/-- The window-lifecycle events of the spec's state machine: map, unmap,
destroy and workspace switch. -/
def lifecycle : Ev → Prop
  | .mapReq _ _ => True
  | .unmapNotify _ _ => True
  | .destroyNotify _ => True
  | .keyWs _ => True
  | _ => False

/-- The window handles currently in the client registry. -/
def handles (s : State) : List Nat := s.clients.map Client.w

end MiniwmFixed

/-! ### Concrete states used in counterexamples and witnesses -/

/-- The registry of `src/madawm.c` with window 5 managed on workspace 0
(used for claim C2). -/
def c2State : Madawm.MState :=
  { ws := fun i => if i = 0 then [5] else [], cur := 0 }

/-- The registry of `src/madawm.c` with window 5 managed on workspace 0
(used for claim C3). -/
def c3State : Madawm.MState :=
  { ws := fun i => if i = 0 then [5] else [], cur := 0 }

/-- The registry of `src/madawm.c` with window 7 managed on workspace 1
while workspace 0 is current (used for claim C4). -/
def c4State : Madawm.MState :=
  { ws := fun i => if i = 1 then [7] else [], cur := 0 }

/-- A `src/README.md`-variant state with one terminal client focused
(used for the C4 witness). -/
def c4MiniwmState : MiniwmFixed.State :=
  { clients := [⟨5, 0⟩], cur_ws := 0, focused := some 5, mapped := fun _ => false }

/-- A `src/madawm.c` state for the C4 witness. -/
def c4MadawmState : Madawm.MState :=
  { ws := fun i => if i = 2 then [9] else [], cur := 0 }

/-- A `src/README.md`-variant state with one terminal client
(used for the C2 witness). -/
def c2WitState : MiniwmFixed.State :=
  { clients := [⟨5, 0⟩], cur_ws := 0, focused := some 5, mapped := fun _ => false }

/-- A `src/README.md`-variant state with three clients on the current
workspace, focus on the first (used for claim C6). -/
def c6State : MiniwmFixed.State :=
  { clients := [⟨5, 0⟩, ⟨6, 0⟩, ⟨7, 0⟩], cur_ws := 0, focused := some 5,
    mapped := fun _ => false }

/-- A `src/madawm.c` state with two distinct clients `[5, 6]` on the
current workspace (used for the C6 counterexample). -/
def c6MadawmState : Madawm.MState :=
  { ws := fun i => if i = 0 then [5, 6] else [], cur := 0 }

/-- A `src/README.md`-variant state used for the C7 witness. -/
def c7State : MiniwmFixed.State :=
  { clients := [⟨5, 0⟩], cur_ws := 0, focused := some 5, mapped := fun _ => false }

/-- A `src/madawm.c` state used for the C7 witness. -/
def c7MadawmState : Madawm.MState :=
  { ws := fun i => if i = 0 then [5] else [], cur := 0 }

/-- Class hints of a `kitty` terminal window with no instance hint
(used for claim C10). -/
def c10Hints : Option (Option String × Option String) := some (some "kitty", none)

/-- The empty starting state of the `src/README.md` variant (used for
claim C10). -/
def c10Init : MiniwmFixed.State :=
  { clients := [], cur_ws := 0, focused := none, mapped := fun _ => false }

/-- C10 event chain: map terminal 5, map terminal 7, cycle focus once
(focus moves off the list head), then deliver a *real* (non-synthetic)
unmap for window 5, which the unmap handler ignores. -/
def c10Final : MiniwmFixed.State :=
  MiniwmFixed.step (.unmapNotify 5 false)
    (MiniwmFixed.step .keyFocusNext
      (MiniwmFixed.step (.mapReq 7 c10Hints)
        (MiniwmFixed.step (.mapReq 5 c10Hints) c10Init)))

/-- A `src/README.md`-variant state used for the C10 witness. -/
def c10WitState : MiniwmFixed.State :=
  { clients := [⟨5, 0⟩, ⟨6, 1⟩], cur_ws := 0, focused := some 5,
    mapped := fun _ => false }

/-! ### Helper lemmas -/

namespace Madawm

theorem eraseWindow_of_not_mem {w : Nat} {l : List Nat} (h : w ∉ l) :
    eraseWindow w l = l := by
  induction l with
  | nil => rfl
  | cons x rest ih =>
    have hx : ¬ x = w := fun hxw => h (hxw ▸ List.mem_cons_self x rest)
    simp only [eraseWindow, if_neg hx]
    rw [ih (fun hm => h (List.mem_cons_of_mem x hm))]

theorem not_mem_eraseWindow {w : Nat} {l : List Nat} (h : l.count w ≤ 1) :
    w ∉ eraseWindow w l := by
  induction l with
  | nil => simp [eraseWindow]
  | cons x rest ih =>
    by_cases hx : x = w
    · subst hx
      simp only [eraseWindow, if_pos rfl]
      have : rest.count x = 0 := by
        have := List.count_cons_self x rest
        omega
      simpa using List.count_eq_zero.mp this
    · simp only [eraseWindow, if_neg hx]
      have hc : rest.count w ≤ 1 := by
        have := List.count_cons w x rest
        omega
      intro hm
      rcases List.mem_cons.mp hm with h1 | h2
      · exact hx h1.symm
      · exact ih hc h2

end Madawm

namespace MiniwmFixed

theorem eraseClient_of_not_mem {w : Nat} {cs : List Client}
    (h : w ∉ cs.map Client.w) : eraseClient w cs = cs := by
  induction cs with
  | nil => rfl
  | cons c rest ih =>
    simp only [List.map_cons, List.mem_cons, not_or] at h
    simp only [eraseClient, if_neg (fun hc : c.w = w => h.1 hc.symm)]
    rw [ih h.2]

theorem not_mem_eraseClient {w : Nat} {cs : List Client}
    (h : (cs.map Client.w).count w ≤ 1) :
    w ∉ (eraseClient w cs).map Client.w := by
  induction cs with
  | nil => simp [eraseClient]
  | cons c rest ih =>
    by_cases hc : c.w = w
    · simp only [eraseClient, if_pos hc]
      simp only [List.map_cons, hc] at h
      have h2 := List.count_cons_self w (rest.map Client.w)
      have : (rest.map Client.w).count w = 0 := by omega
      simpa using List.count_eq_zero.mp this
    · simp only [eraseClient, if_neg hc, List.map_cons]
      have hcnt : (rest.map Client.w).count w ≤ 1 := by
        simp only [List.map_cons] at h
        calc (rest.map Client.w).count w
            ≤ (c.w :: rest.map Client.w).count w := List.count_le_count_cons ..
          _ ≤ 1 := h
      intro hm
      rcases List.mem_cons.mp hm with h1 | h2
      · exact hc h1.symm
      · exact ih hcnt h2

end MiniwmFixed

/-! ### Claim C9 -/

/-- C9: in the `src/madawm.c` variant, `focus_next` removes the head client
of the current workspace and re-inserts it by prepending, so the registry
state — and hence the tiling of any subsequent `arrange` — is exactly what
it was before the call: `focus_next` is the identity on the state. -/
theorem madawm_focus_next_is_registry_id (s : Madawm.MState) :
    Madawm.focus_next s = s := by
  unfold Madawm.focus_next
  cases h : s.ws s.cur with
  | nil => rfl
  | cons first t =>
    simp only [Madawm.add_client, Madawm.remove_client_from_ws, h,
      Madawm.eraseWindow, if_pos rfl, if_true, eq_self_iff_true,
      Function.update_same, Function.update_idem]
    rw [← h, Function.update_eq_self]

/-! ### Claim C8 -/

/-- C8: removal is a no-op (not an error) on a handle absent from the
registry, and — given registry Invariant 1, each handle present at most
once — re-delivering the same removal leaves the registry in the same
state as after the first delivery, in both source variants. -/
theorem remove_absent_noop_and_idempotent (w : Nat) (l : List Nat)
    (cs : List MiniwmFixed.Client) :
    (w ∉ l → Madawm.eraseWindow w l = l)
    ∧ (l.count w ≤ 1 →
        Madawm.eraseWindow w (Madawm.eraseWindow w l) = Madawm.eraseWindow w l)
    ∧ (w ∉ cs.map MiniwmFixed.Client.w → MiniwmFixed.eraseClient w cs = cs)
    ∧ ((cs.map MiniwmFixed.Client.w).count w ≤ 1 →
        MiniwmFixed.eraseClient w (MiniwmFixed.eraseClient w cs)
          = MiniwmFixed.eraseClient w cs) := by
  refine ⟨fun h => Madawm.eraseWindow_of_not_mem h,
          fun h => Madawm.eraseWindow_of_not_mem (Madawm.not_mem_eraseWindow h),
          fun h => MiniwmFixed.eraseClient_of_not_mem h,
          fun h => MiniwmFixed.eraseClient_of_not_mem (MiniwmFixed.not_mem_eraseClient h)⟩

/-- Witness for C8 at `w = 5`, `l = [6, 7]`, `cs = [⟨6, 0⟩]`. -/
theorem remove_absent_noop_and_idempotent_witness :
    Madawm.eraseWindow 5 [6, 7] = [6, 7]
    ∧ Madawm.eraseWindow 5 (Madawm.eraseWindow 5 [6, 7]) = Madawm.eraseWindow 5 [6, 7]
    ∧ MiniwmFixed.eraseClient 5 [⟨6, 0⟩] = [⟨6, 0⟩]
    ∧ MiniwmFixed.eraseClient 5 (MiniwmFixed.eraseClient 5 [⟨6, 0⟩])
        = MiniwmFixed.eraseClient 5 [⟨6, 0⟩] := by
  have h := remove_absent_noop_and_idempotent 5 [6, 7] [⟨6, 0⟩]
  exact ⟨h.1 (by decide), h.2.1 (by decide), h.2.2.1 (by decide), h.2.2.2 (by decide)⟩

/-! ### Claim C1 -/

/-- Counterexample to C1 as stated: at `W = 1921`, `N = 3`, the `arrange` of
`src/madawm.c` gives the *last* column width `1921 / 3 = 640` as well, not
`W - floor(W/N)*(N-1) = 641`, so the three x-ranges end at `1920` and do not
span `[0, 1921)`. -/
theorem madawm_arrange_last_column_cex :
    Madawm.arrange 1921 1080 [4, 5, 6]
      = [(4, 0, 0, 640, 1080), (5, 640, 0, 640, 1080), (6, 1280, 0, 640, 1080)]
    ∧ (640 : Nat) ≠ 1921 - (1921 / 3) * (3 - 1)
    ∧ (1280 : Nat) + 640 ≠ 1921 := by decide

/-- C1 amended: the stated partition property holds for the tiling of the
`src/README.md` variant's `arrange`.  For `N ≥ 1` clients on a screen of
width `W`, column `i < N-1` has width `floor(W/N)` at x-offset
`i*floor(W/N)`, the last column has width `W - floor(W/N)*(N-1)`, adjacent
columns are contiguous, the first starts at 0, and the last ends at `W`. -/
theorem miniwm_arrange_partitions_width (W n : Nat) (hn : 1 ≤ n) :
    (∀ i, i < n →
        (MiniwmFixed.tileColumns W n)[i]?
          = some (i * (W / n), if i = n - 1 then W - i * (W / n) else W / n))
    ∧ (∀ i, i + 1 < n →
        (MiniwmFixed.tileColumns W n)[i]? = some (i * (W / n), W / n))
    ∧ (MiniwmFixed.tileColumns W n)[n - 1]?
        = some ((n - 1) * (W / n), W - (W / n) * (n - 1))
    ∧ (∀ i, i + 1 < n → (i + 1) * (W / n) = i * (W / n) + (W / n))
    ∧ (0 : Nat) * (W / n) = 0
    ∧ (n - 1) * (W / n) + (W - (W / n) * (n - 1)) = W := by
  have hget : ∀ i, i < n →
      (MiniwmFixed.tileColumns W n)[i]?
        = some (i * (W / n), if i = n - 1 then W - i * (W / n) else W / n) := by
    intro i hi
    simp [MiniwmFixed.tileColumns, List.getElem?_map, List.getElem?_range hi]
  have hle : (n - 1) * (W / n) ≤ W := by
    calc (n - 1) * (W / n) ≤ n * (W / n) := Nat.mul_le_mul_right _ (Nat.sub_le n 1)
      _ = (W / n) * n := Nat.mul_comm ..
      _ ≤ W := Nat.div_mul_le_self W n
  refine ⟨hget, ?_, ?_, ?_, by simp, ?_⟩
  · intro i hi
    rw [hget i (by omega), if_neg (by omega)]
  · rw [hget (n - 1) (by omega), if_pos rfl, Nat.mul_comm (W / n) (n - 1)]
  · intro i hi
    ring
  · rw [Nat.mul_comm (W / n) (n - 1)]
    omega

/-- Witness for C1 at `W = 1921`, `n = 3` (the spec's own worked example). -/
theorem miniwm_arrange_partitions_width_witness :
    (1 : Nat) ≤ 3
    ∧ ((∀ i, i < 3 →
          (MiniwmFixed.tileColumns 1921 3)[i]?
            = some (i * (1921 / 3), if i = 3 - 1 then 1921 - i * (1921 / 3) else 1921 / 3))
      ∧ (∀ i, i + 1 < 3 →
          (MiniwmFixed.tileColumns 1921 3)[i]? = some (i * (1921 / 3), 1921 / 3))
      ∧ (MiniwmFixed.tileColumns 1921 3)[3 - 1]?
          = some ((3 - 1) * (1921 / 3), 1921 - (1921 / 3) * (3 - 1))
      ∧ (∀ i, i + 1 < 3 → (i + 1) * (1921 / 3) = i * (1921 / 3) + 1921 / 3)
      ∧ (0 : Nat) * (1921 / 3) = 0
      ∧ (3 - 1) * (1921 / 3) + (1921 - (1921 / 3) * (3 - 1)) = 1921) :=
  ⟨by decide, miniwm_arrange_partitions_width 1921 3 (by decide)⟩

/-! ### Claim C2 -/

/-- Counterexample to C2 as stated: `src/madawm.c`'s `handle_maprequest`
performs no duplicate check, so a second map request for the already-managed
window 5 (an allowed `kitty` window) inserts it a second time: afterwards
the handle appears twice in the registry. -/
theorem madawm_maprequest_duplicate_cex :
    (Madawm.handle_maprequest 5 (some (some "kitty", some "kitty")) c2State).map
        (fun t => (t.ws 0).count 5) = some 2
    ∧ (c2State.ws 0).count 5 = 1 := by decide

namespace MiniwmFixed

theorem set_focus_clients (o : Option Nat) (s : State) :
    (set_focus o s).clients = s.clients := rfl

theorem set_focus_cur_ws (o : Option Nat) (s : State) :
    (set_focus o s).cur_ws = s.cur_ws := rfl

theorem arrange_clients (s : State) : (arrange s).clients = s.clients := by
  unfold arrange
  cases h : visibleHandles s <;> simp [h, set_focus]

theorem arrange_cur_ws (s : State) : (arrange s).cur_ws = s.cur_ws := by
  unfold arrange
  cases h : visibleHandles s <;> simp [h, set_focus]

theorem visibleHandles_congr {s t : State} (hc : s.clients = t.clients)
    (hw : s.cur_ws = t.cur_ws) : visibleHandles s = visibleHandles t := by
  unfold visibleHandles
  rw [hc, hw]

theorem arrange_focused (s : State) :
    (arrange s).focused = (visibleHandles s).head? := by
  unfold arrange
  cases h : visibleHandles s <;> simp [h, set_focus]

theorem mem_visibleHandles_mem_handles {s : State} {x : Nat}
    (h : x ∈ visibleHandles s) : x ∈ handles s := by
  unfold visibleHandles at h
  unfold handles
  rcases List.mem_map.mp h with ⟨c, hc, rfl⟩
  exact List.mem_map_of_mem _ (List.mem_of_mem_filter hc)

theorem focus_next_clients (s : State) : (focus_next s).clients = s.clients := by
  unfold focus_next
  cases h : (visibleHandles s).head? <;> simp [h, set_focus]

theorem focus_next_cur_ws (s : State) : (focus_next s).cur_ws = s.cur_ws := by
  unfold focus_next
  cases h : (visibleHandles s).head? <;> simp [h, set_focus]

theorem focus_prev_clients (s : State) : (focus_prev s).clients = s.clients := by
  unfold focus_prev
  cases h : prevScan s.focused (visibleHandles s) with
  | some p => simp [h, set_focus]
  | none => cases h2 : (visibleHandles s).getLast? <;> simp [h, h2, set_focus]

theorem change_ws_clients (t : Int) (s : State) :
    (change_ws t s).clients = s.clients := by
  unfold change_ws
  by_cases h : t < 0 ∨ 2 ≤ t ∨ t = (s.cur_ws : Int)
  · rw [if_pos h]
  · rw [if_neg h, arrange_clients]

theorem handle_enternotify_clients (w : Nat) (s : State) :
    (handle_enternotify w s).clients = s.clients := by
  unfold handle_enternotify
  cases h : find_client w s with
  | none => rfl
  | some c => by_cases hw : c.workspace = s.cur_ws <;> simp [hw, set_focus]

end MiniwmFixed

/-! ### Claim C3 -/

/-- Counterexample to C3 as stated: `add_client` in `src/madawm.c` *prepends*
the new handle.  Starting from workspace list `[5]`, adding window 6 yields
`[6, 5]`, not the tail-append `[5] ++ [6] = [5, 6]`. -/
theorem madawm_add_client_prepends_cex :
    (Madawm.add_client 6 c3State).ws 0 = [6, 5]
    ∧ (Madawm.add_client 6 c3State).ws 0 ≠ c3State.ws 0 ++ [6] := by decide

/-- C3 amended: in both variants `add_client` inserts the new handle at the
*head* of the target list, so the previously inserted clients keep their
relative order (they are exactly the tail); the registry lists are otherwise
left unchanged by `arrange`, `set_focus`, `change_ws`, `focus_next`,
`focus_prev` and `handle_enternotify` of the `src/README.md` variant (only
the explicit focus-cycle rotation of `src/madawm.c`'s `focus_prev` and
removal reorder/shrink a list). -/
theorem add_client_prepends_order_preserved (w k : Nat) (s : Madawm.MState)
    (t : MiniwmFixed.State) (o : Option Nat) (n : Int) :
    (Madawm.add_client w s).ws s.cur = w :: s.ws s.cur
    ∧ (∀ j, j ≠ s.cur → (Madawm.add_client w s).ws j = s.ws j)
    ∧ (MiniwmFixed.add_client w k t).clients = ⟨w, k⟩ :: t.clients
    ∧ (MiniwmFixed.arrange t).clients = t.clients
    ∧ (MiniwmFixed.set_focus o t).clients = t.clients
    ∧ (MiniwmFixed.change_ws n t).clients = t.clients
    ∧ (MiniwmFixed.focus_next t).clients = t.clients
    ∧ (MiniwmFixed.focus_prev t).clients = t.clients
    ∧ (MiniwmFixed.handle_enternotify w t).clients = t.clients := by
  refine ⟨?_, ?_, rfl, MiniwmFixed.arrange_clients t, rfl,
    MiniwmFixed.change_ws_clients n t, MiniwmFixed.focus_next_clients t,
    MiniwmFixed.focus_prev_clients t, MiniwmFixed.handle_enternotify_clients w t⟩
  · simp [Madawm.add_client, Function.update_same]
  · intro j hj
    simp [Madawm.add_client, Function.update_noteq hj]

/-- Witness for C3 at window 8, workspace 1, `j = 2`, the concrete states of
claim C3's counterexample being reused is not possible, so fresh inputs. -/
theorem add_client_prepends_order_preserved_witness :
    (Madawm.add_client 8 { ws := fun _ => [], cur := 0 }).ws (0 : Fin 3)
        = 8 :: ({ ws := fun _ => [], cur := 0 } : Madawm.MState).ws 0
    ∧ (Madawm.add_client 8 { ws := fun _ => [], cur := 0 }).ws (2 : Fin 3)
        = ({ ws := fun _ => [], cur := 0 } : Madawm.MState).ws 2 := by
  have h := add_client_prepends_order_preserved 8 1
    { ws := fun _ => [], cur := 0 }
    { clients := [], cur_ws := 0, focused := none, mapped := fun _ => false }
    none 0
  exact ⟨h.1, h.2.1 2 (by decide)⟩

/-! ### Claim C4 -/

/-- Counterexample to C4 as stated: in `src/madawm.c` the unmap/destroy
handlers call `remove_client_from_ws(w, cur_ws)` — the *current* workspace
only.  With window 7 managed on workspace 1 while workspace 0 is current,
both handlers leave 7 in the registry. -/
theorem madawm_destroy_other_workspace_cex :
    (Madawm.handle_destroy 7 c4State).ws 1 = [7]
    ∧ (Madawm.handle_unmap 7 c4State).ws 1 = [7]
    ∧ (7 : Nat) ∈ (Madawm.handle_destroy 7 c4State).ws 1 := by decide

/-- C4 amended: in the `src/README.md` variant, `DestroyNotify` (and a
*synthetic* `UnmapNotify`, to which the unmap handler is restricted) removes
the handle from the registry whichever workspace holds it and re-runs
`arrange`, whose focus pass cannot land on the removed window; in
`src/madawm.c` the handlers remove the handle only from the current
workspace's list. -/
theorem miniwm_destroy_removes_everywhere (s : MiniwmFixed.State) (w : Nat)
    (hnd : (MiniwmFixed.handles s).Nodup) :
    w ∉ MiniwmFixed.handles (MiniwmFixed.handle_destroy w s)
    ∧ (MiniwmFixed.handle_destroy w s).focused ≠ some w
    ∧ MiniwmFixed.handle_unmap w true s = MiniwmFixed.handle_destroy w s
    ∧ (∀ (t : Madawm.MState) (j : Fin 3), j ≠ t.cur →
        (Madawm.handle_unmap w t).ws j = t.ws j
        ∧ (Madawm.handle_destroy w t).ws j = t.ws j) := by
  have hcnt : (MiniwmFixed.handles s).count w ≤ 1 :=
    List.nodup_iff_count_le_one.mp hnd w
  have hnot : w ∉ MiniwmFixed.handles (MiniwmFixed.handle_destroy w s) := by
    unfold MiniwmFixed.handle_destroy
    unfold MiniwmFixed.handles
    rw [MiniwmFixed.arrange_clients]
    exact MiniwmFixed.not_mem_eraseClient hcnt
  refine ⟨hnot, ?_, rfl, ?_⟩
  · intro hfoc
    unfold MiniwmFixed.handle_destroy at hfoc
    rw [MiniwmFixed.arrange_focused] at hfoc
    have hmem : w ∈ MiniwmFixed.visibleHandles (MiniwmFixed.remove_client w s) := by
      rw [List.eq_cons_of_mem_head? (Option.mem_def.mpr hfoc)]
      exact List.mem_cons_self ..
    have hh : w ∈ MiniwmFixed.handles (MiniwmFixed.remove_client w s) :=
      MiniwmFixed.mem_visibleHandles_mem_handles hmem
    apply hnot
    unfold MiniwmFixed.handle_destroy MiniwmFixed.handles
    rw [MiniwmFixed.arrange_clients]
    exact hh
  · intro t j hj
    constructor <;>
      simp [Madawm.handle_unmap, Madawm.handle_destroy,
        Madawm.remove_client_from_ws, Function.update_noteq hj]

/-- Witness for C4 at the one-terminal state `c4MiniwmState`, window 5. -/
theorem miniwm_destroy_removes_everywhere_witness :
    (5 : Nat) ∉ MiniwmFixed.handles (MiniwmFixed.handle_destroy 5 c4MiniwmState)
    ∧ (MiniwmFixed.handle_destroy 5 c4MiniwmState).focused ≠ some 5
    ∧ (Madawm.handle_destroy 5 c4MadawmState).ws (2 : Fin 3)
        = c4MadawmState.ws 2 := by
  have h := miniwm_destroy_removes_everywhere c4MiniwmState 5 (by decide)
  exact ⟨h.1, h.2.1, (h.2.2.2 c4MadawmState 2 (by decide)).2⟩

/-! ### Claim C5 -/

/-- Counterexample to C5 as stated, against `allowed_window` of
`src/madawm.c`: a window with `res_class` unset but `res_name = "xterm"`
(an allow-list entry) is rejected — the `res_name` field is never checked
when `res_class` is NULL; and a window with `res_class = "kitty"` and
`res_name` unset reaches `strcasecmp(NULL, "XTerm")` — a dereference of the
absent hint string (undefined behaviour, modelled as `none`). -/
theorem madawm_allowed_window_hints_cex :
    Madawm.allowed_window (some (none, some "xterm")) = some false
    ∧ Madawm.allowed_window (some (some "kitty", none)) = none := by decide

/-- C5 amended: the claimed behaviour holds for `match_class` of the
`src/README.md` variant: each hint field is compared only under its own
non-NULL guard, a window whose `res_class` is unset but whose `res_name`
matches an allow-list entry case-insensitively is still accepted (and
symmetrically for a `res_class`-only window), and windows with both hints
absent, or no class hint at all, are rejected without any dereference. -/
theorem miniwm_match_class_checks_both_fields (classes : List String)
    (c n : String) (hc : classes.any (fun p => ieq c p) = true)
    (hn : classes.any (fun p => ieq n p) = true) :
    MiniwmFixed.match_class classes (some (none, some n)) = true
    ∧ MiniwmFixed.match_class classes (some (some c, none)) = true
    ∧ MiniwmFixed.match_class classes (some (none, none)) = false
    ∧ MiniwmFixed.match_class classes none = false := by
  refine ⟨?_, ?_, by simp [MiniwmFixed.match_class], rfl⟩
  · simpa [MiniwmFixed.match_class] using hn
  · simpa [MiniwmFixed.match_class] using hc

/-- Witness for C5: `res_name = "XTERM"` alone, or `res_class = "KiTTy"`
alone, is accepted against the terminal allow-list. -/
theorem miniwm_match_class_checks_both_fields_witness :
    MiniwmFixed.match_class MiniwmFixed.terminal_classes (some (none, some "XTERM")) = true
    ∧ MiniwmFixed.match_class MiniwmFixed.terminal_classes (some (some "KiTTy", none)) = true := by
  have h := miniwm_match_class_checks_both_fields MiniwmFixed.terminal_classes
    "KiTTy" "XTERM" (by decide) (by decide)
  exact ⟨h.1, h.2.1⟩

/-! ### Claim C7 -/

/-- C7: `change_ws(target)` leaves the whole state — workspace index,
registry, focused window and mapped states — unchanged when the target
equals the current workspace or is out of range, in both variants
(`src/README.md` checks all three guards explicitly; `src/madawm.c` checks
the range guards, and re-selecting the current workspace rewrites `cur_ws`
with its own value, leaving the state equal). -/
theorem change_ws_noop_when_same_or_out_of_range (s : MiniwmFixed.State)
    (t : Madawm.MState) (a b : Int)
    (ha : a = (s.cur_ws : Int) ∨ a < 0 ∨ 2 ≤ a)
    (hb : b = ((t.cur : Nat) : Int) ∨ b < 0 ∨ 3 ≤ b) :
    MiniwmFixed.change_ws a s = s ∧ Madawm.change_ws b t = t := by
  constructor
  · unfold MiniwmFixed.change_ws
    rcases ha with h | h | h
    · rw [if_pos (Or.inr (Or.inr h))]
    · rw [if_pos (Or.inl h)]
    · rw [if_pos (Or.inr (Or.inl h))]
  · rcases hb with h | h | h
    · have hlt : (t.cur : Nat) < 3 := t.cur.isLt
      have hnc : ¬(b < 0 ∨ 3 ≤ b) := by omega
      unfold Madawm.change_ws
      rw [dif_neg hnc]
      obtain ⟨ws, cur⟩ := t
      simp only [Madawm.MState.mk.injEq, true_and]
      apply Fin.ext
      show b.toNat = (cur : Nat)
      simp only at h
      omega
    · unfold Madawm.change_ws
      rw [dif_pos (Or.inl h)]
    · unfold Madawm.change_ws
      rw [dif_pos (Or.inr h)]

/-- Witness for C7: switching to workspace 5 (out of range) in the
`src/README.md` variant and re-selecting the current workspace 0 in
`src/madawm.c` both leave the state unchanged. -/
theorem change_ws_noop_when_same_or_out_of_range_witness :
    MiniwmFixed.change_ws 5 c7State = c7State
    ∧ Madawm.change_ws 0 c7MadawmState = c7MadawmState :=
  change_ws_noop_when_same_or_out_of_range c7State c7MadawmState 5 0
    (by decide) (by decide)

/-! ### Claim C2 (amended part) -/

namespace MiniwmFixed

theorem eraseClient_sublist (w : Nat) (cs : List Client) :
    List.Sublist (eraseClient w cs) cs := by
  induction cs with
  | nil => exact List.Sublist.refl _
  | cons c rest ih =>
    by_cases hc : c.w = w
    · simp only [eraseClient, if_pos hc]
      exact List.sublist_cons_self c rest
    · simp only [eraseClient, if_neg hc]
      exact ih.cons₂ c

theorem not_mem_handles_of_find_client_none {w : Nat} {s : State}
    (h : ¬(find_client w s).isSome) : w ∉ handles s := by
  rw [Option.not_isSome_iff_eq_none] at h
  unfold find_client at h
  intro hm
  rcases List.mem_map.mp hm with ⟨c, hc, hw⟩
  have := List.find?_eq_none.mp h c hc
  simp [hw] at this

end MiniwmFixed

/-- C2 amended: the stated behaviour holds for the `src/README.md` variant:
its map-request handler ignores a request for an already-managed window
(leaving the state untouched), and every event of the dispatcher preserves
the at-most-once occurrence of window handles in the Client Registry.
(`src/madawm.c`'s map-request handler performs no duplicate check and can
insert a handle twice.) -/
theorem miniwm_maprequest_dup_ignored_registry_nodup (s : MiniwmFixed.State)
    (w : Nat) (hints : Option (Option String × Option String))
    (e : MiniwmFixed.Ev) :
    ((MiniwmFixed.find_client w s).isSome →
        MiniwmFixed.handle_maprequest w hints s = s)
    ∧ ((MiniwmFixed.handles s).Nodup →
        (MiniwmFixed.handles (MiniwmFixed.step e s)).Nodup) := by
  constructor
  · intro h
    unfold MiniwmFixed.handle_maprequest
    rw [if_pos h]
  · intro hnd
    have herase : ∀ w2 : Nat,
        (MiniwmFixed.handles
          (MiniwmFixed.arrange (MiniwmFixed.remove_client w2 s))).Nodup := by
      intro w2
      unfold MiniwmFixed.handles
      rw [MiniwmFixed.arrange_clients]
      exact hnd.sublist ((MiniwmFixed.eraseClient_sublist w2 s.clients).map _)
    cases e with
    | mapReq w2 h2 =>
      show (MiniwmFixed.handles (MiniwmFixed.handle_maprequest w2 h2 s)).Nodup
      by_cases hf : (MiniwmFixed.find_client w2 s).isSome
      · unfold MiniwmFixed.handle_maprequest
        rw [if_pos hf]
        exact hnd
      · have hmem : w2 ∉ MiniwmFixed.handles s :=
          MiniwmFixed.not_mem_handles_of_find_client_none hf
        unfold MiniwmFixed.handle_maprequest
        rw [if_neg hf]
        simp only []
        by_cases hws : MiniwmFixed.get_window_workspace h2 < 0
        · rw [if_pos hws]
          exact hnd
        · rw [if_neg hws]
          have hadd : (MiniwmFixed.handles
              (MiniwmFixed.add_client w2 (MiniwmFixed.get_window_workspace h2).toNat s)).Nodup := by
            unfold MiniwmFixed.handles MiniwmFixed.add_client
            simp only [List.map_cons]
            exact List.nodup_cons.mpr ⟨hmem, hnd⟩
          by_cases hne : MiniwmFixed.get_window_workspace h2 ≠ (s.cur_ws : Int)
          · rw [if_pos hne]
            unfold MiniwmFixed.handles
            rw [MiniwmFixed.change_ws_clients]
            exact hadd
          · rw [if_neg hne]
            unfold MiniwmFixed.handles
            rw [MiniwmFixed.arrange_clients]
            exact hadd
    | unmapNotify w2 syn =>
      show (MiniwmFixed.handles (MiniwmFixed.handle_unmap w2 syn s)).Nodup
      unfold MiniwmFixed.handle_unmap
      by_cases hs : syn = true
      · rw [if_pos hs]
        exact herase w2
      · rw [if_neg hs]
        exact hnd
    | destroyNotify w2 => exact herase w2
    | configureReq => exact hnd
    | enterNotify w2 =>
      show (MiniwmFixed.handles (MiniwmFixed.handle_enternotify w2 s)).Nodup
      unfold MiniwmFixed.handles
      rw [MiniwmFixed.handle_enternotify_clients]
      exact hnd
    | keyWs n =>
      show (MiniwmFixed.handles (MiniwmFixed.change_ws n s)).Nodup
      unfold MiniwmFixed.handles
      rw [MiniwmFixed.change_ws_clients]
      exact hnd
    | keyFocusNext =>
      show (MiniwmFixed.handles (MiniwmFixed.focus_next s)).Nodup
      unfold MiniwmFixed.handles
      rw [MiniwmFixed.focus_next_clients]
      exact hnd
    | keyFocusPrev =>
      show (MiniwmFixed.handles (MiniwmFixed.focus_prev s)).Nodup
      unfold MiniwmFixed.handles
      rw [MiniwmFixed.focus_prev_clients]
      exact hnd
    | keyKill => exact hnd
    | keySpawn => exact hnd

/-- Witness for C2 at the one-client state `c2WitState`: a duplicate map
request for window 5 is ignored, and a destroy event keeps the registry
duplicate-free. -/
theorem miniwm_maprequest_dup_ignored_registry_nodup_witness :
    MiniwmFixed.handle_maprequest 5 none c2WitState = c2WitState
    ∧ (MiniwmFixed.handles
        (MiniwmFixed.step (MiniwmFixed.Ev.destroyNotify 5) c2WitState)).Nodup := by
  have h := miniwm_maprequest_dup_ignored_registry_nodup c2WitState 5 none
    (MiniwmFixed.Ev.destroyNotify 5)
  exact ⟨h.1 (by decide), h.2 (by decide)⟩

/-! ### Claim C10 -/

namespace MiniwmFixed

theorem get_window_workspace_cases (h : Option (Option String × Option String)) :
    get_window_workspace h = -1 ∨ get_window_workspace h = 0
      ∨ get_window_workspace h = 1 := by
  unfold get_window_workspace
  split_ifs <;> simp

theorem arrange_head_focus (s : State) :
    (arrange s).focused = (visibleHandles (arrange s)).head? := by
  rw [arrange_focused, visibleHandles_congr (arrange_clients s) (arrange_cur_ws s)]

end MiniwmFixed

/-- Counterexample to C10 as stated: starting from an empty registry, map
two terminal windows 5 and 7 (leaving list order `[7, 5]`, focus on the
head 7), cycle focus once (focus moves to 5), then deliver a *real*
(non-synthetic) `UnmapNotify` for 5.  The unmap handler ignores it, so the
focused window stays 5 while the head of the current workspace's sequence
is 7 — after this unmap event the focused window is not the head. -/
theorem miniwm_focus_head_after_unmap_cex :
    MiniwmFixed.lifecycle (MiniwmFixed.Ev.unmapNotify 5 false)
    ∧ c10Final.focused = some 5
    ∧ (MiniwmFixed.visibleHandles c10Final).head? = some 7
    ∧ c10Final.focused ≠ (MiniwmFixed.visibleHandles c10Final).head? :=
  ⟨trivial, by decide, by decide, by decide⟩

/-- C10 amended: every `arrange` of the `src/README.md` variant ends by
focusing the head of the current workspace's client sequence (the most
recently inserted client, since `add_client` prepends), or reverts input
focus to the root window when the workspace is empty; hence after every
map, unmap, destroy or workspace-switch event the handler either left the
state completely unchanged (ignored event: duplicate or rejected map
request, non-synthetic unmap, out-of-range or same-workspace switch) or
the focused window equals the head of the current workspace's sequence. -/
theorem miniwm_lifecycle_focus_head (s : MiniwmFixed.State) (e : MiniwmFixed.Ev)
    (he : MiniwmFixed.lifecycle e) :
    MiniwmFixed.step e s = s
    ∨ (MiniwmFixed.step e s).focused
        = (MiniwmFixed.visibleHandles (MiniwmFixed.step e s)).head? := by
  cases e with
  | mapReq w h =>
    simp only [MiniwmFixed.step]
    by_cases hf : (MiniwmFixed.find_client w s).isSome
    · left
      unfold MiniwmFixed.handle_maprequest
      rw [if_pos hf]
    · by_cases hws : MiniwmFixed.get_window_workspace h < 0
      · left
        unfold MiniwmFixed.handle_maprequest
        rw [if_neg hf]
        simp only []
        rw [if_pos hws]
      · right
        unfold MiniwmFixed.handle_maprequest
        rw [if_neg hf]
        simp only []
        rw [if_neg hws]
        by_cases hne : MiniwmFixed.get_window_workspace h ≠ (s.cur_ws : Int)
        · rw [if_pos hne]
          have hc := MiniwmFixed.get_window_workspace_cases h
          unfold MiniwmFixed.change_ws
          rw [if_neg ?hguard]
          case hguard =>
            show ¬(MiniwmFixed.get_window_workspace h < 0
              ∨ 2 ≤ MiniwmFixed.get_window_workspace h
              ∨ MiniwmFixed.get_window_workspace h
                  = ((MiniwmFixed.add_client w
                      (MiniwmFixed.get_window_workspace h).toNat s).cur_ws : Int))
            have hcur : ((MiniwmFixed.add_client w
                (MiniwmFixed.get_window_workspace h).toNat s).cur_ws : Int)
                = (s.cur_ws : Int) := rfl
            rw [hcur]
            rcases hc with h1 | h1 | h1 <;> rw [h1] <;> rw [h1] at hne hws <;> omega
          exact MiniwmFixed.arrange_head_focus _
        · rw [if_neg hne]
          exact MiniwmFixed.arrange_head_focus _
  | unmapNotify w syn =>
    simp only [MiniwmFixed.step]
    cases syn with
    | false => left; rfl
    | true =>
      right
      unfold MiniwmFixed.handle_unmap
      rw [if_pos rfl]
      exact MiniwmFixed.arrange_head_focus _
  | destroyNotify w =>
    right
    exact MiniwmFixed.arrange_head_focus _
  | keyWs n =>
    simp only [MiniwmFixed.step]
    unfold MiniwmFixed.change_ws
    split_ifs with hg
    · left; rfl
    · right; exact MiniwmFixed.arrange_head_focus _
  | configureReq => exact he.elim
  | enterNotify w => exact he.elim
  | keyFocusNext => exact he.elim
  | keyFocusPrev => exact he.elim
  | keyKill => exact he.elim
  | keySpawn => exact he.elim

/-- Witness for C10: a destroy event at the two-client state `c10WitState`. -/
theorem miniwm_lifecycle_focus_head_witness :
    MiniwmFixed.step (MiniwmFixed.Ev.destroyNotify 5) c10WitState = c10WitState
    ∨ (MiniwmFixed.step (MiniwmFixed.Ev.destroyNotify 5) c10WitState).focused
        = (MiniwmFixed.visibleHandles
            (MiniwmFixed.step (MiniwmFixed.Ev.destroyNotify 5) c10WitState)).head? :=
  miniwm_lifecycle_focus_head c10WitState (MiniwmFixed.Ev.destroyNotify 5) trivial

/-! ### Claim C6 -/

namespace MiniwmFixed

theorem nextAfter_get? (l : List Nat) (hl : l.Nodup) (i x : Nat)
    (hx : l.get? i = some x) : nextAfter (some x) l = l.get? (i + 1) := by
  induction l generalizing i with
  | nil => simp at hx
  | cons a t ih =>
    cases i with
    | zero =>
      have ha : a = x := by simpa using hx
      subst ha
      simp only [nextAfter, if_pos rfl]
      cases t <;> rfl
    | succ j =>
      have hxt : t.get? j = some x := hx
      have hmem : x ∈ t := List.get?_mem hxt
      have ha : a ∉ t := (List.nodup_cons.mp hl).1
      have hne : ¬(some a = some x) := by
        intro hcontra
        cases hcontra
        exact ha hmem
      simp only [nextAfter]
      rw [if_neg hne]
      exact ih (List.nodup_cons.mp hl).2 j hxt

theorem get?_rotate (l : List Nat) (n k : Nat) (hk : k < l.length) :
    (l.rotate n).get? k = l.get? ((k + n) % l.length) := by
  have hk2 : k < (l.rotate n).length := by
    rw [List.length_rotate]
    exact hk
  have hlen : 0 < l.length := Nat.lt_of_le_of_lt (Nat.zero_le k) hk
  rw [List.get?_eq_get hk2, List.get?_eq_get (Nat.mod_lt _ hlen)]
  rw [List.get_rotate]

theorem focus_next_step (s : State) (hnd : (visibleHandles s).Nodup) (i x : Nat)
    (hget : (visibleHandles s).get? i = some x) (hf : s.focused = some x) :
    (focus_next s).focused
      = (visibleHandles s).get? ((i + 1) % (visibleHandles s).length) := by
  have hi : i < (visibleHandles s).length := (List.get?_eq_some.mp hget).1
  have hlen : 0 < (visibleHandles s).length := Nat.lt_of_le_of_lt (Nat.zero_le i) hi
  obtain ⟨first, rest, hv⟩ : ∃ f r, visibleHandles s = f :: r := by
    cases hvv : visibleHandles s with
    | nil =>
      rw [hvv] at hlen
      exact absurd hlen (by simp)
    | cons f r => exact ⟨f, r, rfl⟩
  have hform : (focus_next s).focused
      = some ((nextAfter s.focused (first :: rest)).getD first) := by
    simp only [focus_next, hv, List.head?_cons, set_focus]
  rw [hv] at hnd hget ⊢
  have hi2 : i < (first :: rest).length := (List.get?_eq_some.mp hget).1
  rw [hform, hf, nextAfter_get? (first :: rest) hnd i x hget]
  rcases Nat.lt_or_ge (i + 1) (first :: rest).length with hlt | hge
  · rw [Nat.mod_eq_of_lt hlt, List.get?_eq_get hlt]
    rfl
  · have hieq : i + 1 = (first :: rest).length := by
      simp only [List.length_cons] at hi2 hge ⊢
      omega
    rw [List.get?_eq_none.mpr (Nat.le_of_eq hieq.symm), hieq, Nat.mod_self]
    rfl

theorem focus_next_iterate (s : State) (hnd : (visibleHandles s).Nodup)
    (hne : visibleHandles s ≠ []) (hf : s.focused = (visibleHandles s).head?) :
    ∀ j : Nat,
      (Nat.iterate focus_next j s).clients = s.clients
      ∧ (Nat.iterate focus_next j s).cur_ws = s.cur_ws
      ∧ (Nat.iterate focus_next j s).focused
          = (visibleHandles s).get? (j % (visibleHandles s).length) := by
  have hlen : 0 < (visibleHandles s).length := List.length_pos.mpr hne
  intro j
  induction j with
  | zero =>
    refine ⟨rfl, rfl, ?_⟩
    rw [Nat.zero_mod]
    show s.focused = _
    rw [hf]
    exact (List.get?_zero _).symm
  | succ j ih =>
    obtain ⟨hc, hw, hfoc⟩ := ih
    have hvs_eq : visibleHandles (Nat.iterate focus_next j s) = visibleHandles s :=
      visibleHandles_congr hc hw
    obtain ⟨x, hx⟩ : ∃ x, (visibleHandles s).get?
        (j % (visibleHandles s).length) = some x :=
      ⟨_, List.get?_eq_get (Nat.mod_lt _ hlen)⟩
    have hstep := focus_next_step (Nat.iterate focus_next j s)
      (hvs_eq.symm ▸ hnd) (j % (visibleHandles s).length) x
      (hvs_eq.symm ▸ hx) (hfoc.trans hx)
    rw [hvs_eq] at hstep
    have hmod : (j % (visibleHandles s).length + 1) % (visibleHandles s).length
        = (j + 1) % (visibleHandles s).length :=
      Nat.ModEq.add_right 1 (Nat.mod_modEq j _)
    refine ⟨?_, ?_, ?_⟩
    · rw [Function.iterate_succ_apply', focus_next_clients, hc]
    · rw [Function.iterate_succ_apply', focus_next_cur_ws, hw]
    · rw [Function.iterate_succ_apply', hstep, hmod]

end MiniwmFixed

/-- C6 amended: in the `src/README.md` variant — the variant that tracks
focus; `src/madawm.c`'s `focus_next` assigns no focus and leaves its state
unchanged — for a current workspace holding
`K ≥ 1` distinct clients with focus starting on the first element,
`K` successive calls of `focus_next` return focus to the first element,
and the foci reached by calls `1..K` are exactly the rotation of the
client sequence by one — every element is visited exactly once, each call
moving focus to the successor of the server-focused window, wrapping from
the last element to the first. -/
theorem miniwm_focus_next_round_trip (s : MiniwmFixed.State)
    (hnd : (MiniwmFixed.visibleHandles s).Nodup)
    (hne : MiniwmFixed.visibleHandles s ≠ [])
    (hf : s.focused = (MiniwmFixed.visibleHandles s).head?) :
    (Nat.iterate MiniwmFixed.focus_next (MiniwmFixed.visibleHandles s).length s).focused
        = (MiniwmFixed.visibleHandles s).head?
    ∧ (List.range (MiniwmFixed.visibleHandles s).length).map
          (fun j => (Nat.iterate MiniwmFixed.focus_next (j + 1) s).focused)
        = ((MiniwmFixed.visibleHandles s).rotate 1).map some := by
  have hlen : 0 < (MiniwmFixed.visibleHandles s).length := List.length_pos.mpr hne
  have master := MiniwmFixed.focus_next_iterate s hnd hne hf
  constructor
  · have h := (master (MiniwmFixed.visibleHandles s).length).2.2
    rw [Nat.mod_self] at h
    rw [h]
    exact List.get?_zero _
  · apply List.ext
    intro n
    rcases Nat.lt_or_ge n (MiniwmFixed.visibleHandles s).length with hn | hn
    · rw [List.get?_map, List.get?_map, List.get?_range hn]
      have hrot : n < ((MiniwmFixed.visibleHandles s).rotate 1).length := by
        rw [List.length_rotate]
        exact hn
      rw [List.get?_eq_get hrot, List.get_rotate]
      simp only [Option.map_some']
      have h := (master (n + 1)).2.2
      rw [h, List.get?_eq_get (Nat.mod_lt _ hlen)]
    · rw [List.get?_map, List.get?_map]
      rw [List.get?_eq_none.mpr (by simpa using hn),
        List.get?_eq_none.mpr (by rw [List.length_rotate]; exact hn)]
      rfl

/-- Witness for C6 at the three-client state `c6State` (clients `[5, 6, 7]`
on workspace 0, focus on 5). -/
theorem miniwm_focus_next_round_trip_witness :
    (Nat.iterate MiniwmFixed.focus_next
        (MiniwmFixed.visibleHandles c6State).length c6State).focused
      = (MiniwmFixed.visibleHandles c6State).head?
    ∧ (List.range (MiniwmFixed.visibleHandles c6State).length).map
          (fun j => (Nat.iterate MiniwmFixed.focus_next (j + 1) c6State).focused)
        = ((MiniwmFixed.visibleHandles c6State).rotate 1).map some :=
  miniwm_focus_next_round_trip c6State (by decide) (by decide) (by decide)

/-- Counterexample to C6 as stated: the claim also cites `focus_next` of
`src/madawm.c`, but that variant performs no focus assignment at all (its
state has no focus component to move, and the function issues no
`XSetInputFocus`): at the concrete two-client workspace `[5, 6]`, one call
— and likewise two successive calls — of `focus_next` leaves every
workspace list and the current-workspace index exactly as they were, so
with `K = 2` distinct clients the `K` calls cannot visit every element
exactly once or move focus to the successor of a focused window. -/
theorem madawm_focus_next_no_focus_cex :
    (Madawm.focus_next c6MadawmState).ws 0 = c6MadawmState.ws 0
    ∧ (Madawm.focus_next c6MadawmState).ws 1 = c6MadawmState.ws 1
    ∧ (Madawm.focus_next c6MadawmState).ws 2 = c6MadawmState.ws 2
    ∧ (Madawm.focus_next c6MadawmState).cur = c6MadawmState.cur
    ∧ (Nat.iterate Madawm.focus_next 2 c6MadawmState).ws 0 = c6MadawmState.ws 0
    ∧ c6MadawmState.ws 0 = [5, 6]
    ∧ (5 : Nat) ≠ 6 := by decide
